import Mathlib

/-!
# Reverse proxy server: forwarding engine

A shallow embedding of `src/reverse-proxy-server.cpp`: route matching in
`ev_handler`, outbound request construction in
`ReverseProxyServer::makeHttpRequest`, and the two relay callbacks
`receiveHeader` and `receiveData`.

Representation.
* A `char` is a `Char`; a C string (`const char*`) and the text of a
  `std::string` are the list of characters before the terminating NUL.
* `size_t` arithmetic is arithmetic on `Nat` modulo `2 ^ 64`; an `int` has
  32 bits and a `long` 64.
* Undefined behaviour and thrown exceptions are explicit faults.
* Calls on the Mongoose connection (`mg_send_status`, `mg_send_header`,
  `mg_send_data`) are recorded, in order, as a list of actions.
* libcurl is a parameter: `curl_easy_escape` is a function that may return
  NULL, and `curl_easy_perform` is a function from the configured outbound
  request to the callback invocations it makes and its result code.
-/

namespace ReverseProxy

/-- Text of a C string or of a `std::string`. -/
abbrev Str := List Char

/-- Modulus of `size_t` arithmetic. -/
def SIZE_MOD : Nat := 2 ^ 64

/-- Faults: what the C++ standard leaves undefined or reports by exception. -/
inductive Fault where
  /-- An access `std::string::operator[]` with an index beyond `size()`. -/
  | outOfBounds
  /-- The exception `std::out_of_range` thrown by `std::string::substr`. -/
  | outOfRange
  deriving DecidableEq

deriving instance DecidableEq for Except

/-! ## String primitives -/

/-- The C function `strstr(haystack, needle)`: offset of the first occurrence of `needle`
in `haystack`; `none` stands for the NULL result. -/
def strstr : Str → Str → Option Nat
  | [], needle => if needle = [] then some 0 else none
  | c :: cs, needle =>
    if needle <+: c :: cs then some 0
    else (strstr cs needle).map (· + 1)

/-- The method `std::string::find(pattern)`: `none` stands for `npos`. -/
def find (s pattern : Str) : Option Nat := strstr s pattern

/-- The method `std::string::find(ch)`. -/
def findChar : Str → Char → Option Nat
  | [], _ => none
  | c :: cs, ch => if c = ch then some 0 else (findChar cs ch).map (· + 1)

/-- The method `std::string::substr(pos)`: throws `std::out_of_range` when
`pos > size()`. -/
def substr (s : Str) (pos : Nat) : Except Fault Str :=
  if pos > s.length then .error .outOfRange else .ok (s.drop pos)

/-- The method `std::string::substr(pos, count)`, same exception. -/
def substrN (s : Str) (pos count : Nat) : Except Fault Str :=
  if pos > s.length then .error .outOfRange else .ok ((s.drop pos).take count)

/-- The method `std::string::erase(pos, count)` for `pos ≤ size()`. -/
def erase (s : Str) (pos count : Nat) : Str :=
  s.take pos ++ s.drop (pos + count)

/-- The access `std::string::operator[] (pos)`: the character at `pos`, the
terminator at `pos = size()`, undefined beyond. -/
def index (s : Str) (pos : Nat) : Except Fault Char :=
  if h : pos < s.length then .ok (s.get ⟨pos, h⟩)
  else if pos = s.length then .ok (Char.ofNat 0)
  else .error .outOfBounds

/-! ## `std::stringstream` and `std::getline` -/

/-- Read side of a `std::stringstream`: the characters not yet extracted
and the two state bits the loop depends on. -/
structure StringStream where
  buf : Str
  eofbit : Bool
  failbit : Bool
  deriving DecidableEq

/-- The declaration `std::stringstream ss(path)`. -/
def StringStream.ofString (s : Str) : StringStream :=
  { buf := s, eofbit := false, failbit := false }

/-- Extraction loop of `std::getline`: characters are moved to the item
until the delimiter (extracted and discarded) or the end of the buffer.
Returns the item, the rest of the buffer, and whether the delimiter was
found. -/
def extractUntil (delim : Char) : Str → Str × Str × Bool
  | [] => ([], [], false)
  | c :: cs =>
    if c = delim then ([], cs, true)
    else
      let r := extractUntil delim cs
      (c :: r.1, r.2.1, r.2.2)

/-- The call `std::getline(ss, item, delim)`. When the stream is not good the
sentry fails: `failbit` is set and `item` is left alone. Otherwise `item`
is replaced; reaching the end of the buffer sets `eofbit`, and extracting
nothing at all (not even a delimiter) sets `failbit`. -/
def getline (ss : StringStream) (item : Str) (delim : Char) : StringStream × Str :=
  if ss.eofbit || ss.failbit then ({ ss with failbit := true }, item)
  else
    match extractUntil delim ss.buf with
    | (it, rest, true) => ({ buf := rest, eofbit := false, failbit := false }, it)
    | (it, _, false) => ({ buf := [], eofbit := true, failbit := it.isEmpty }, it)

/-- The loop `while (std::getline(ss, item, '/')) { ... }` of
`makeHttpRequest` (lines 78-88). `escape` is `curl_easy_escape`, whose
NULL result is `none`. Each iteration that enters the body has extracted at
least one character, so `fuel = path.size() + 1` iterations reach the
failing `getline`. -/
def encodeLoop (escape : Str → Option Str) :
    Nat → StringStream → Str → Str → Str
  | 0, _, _, encoded_path => encoded_path
  | fuel + 1, ss, item, encoded_path =>
    let r := getline ss item '/'
    if r.1.failbit then encoded_path
    else if r.2.isEmpty then encodeLoop escape fuel r.1 r.2 encoded_path
    else
      match escape r.2 with
      | some output => encodeLoop escape fuel r.1 r.2 (encoded_path ++ '/' :: output)
      | none => encodeLoop escape fuel r.1 r.2 (encoded_path ++ '/' :: r.2)

/-- Lines 75-94 of `makeHttpRequest`: the encoded path. The index
`path.size()-1` is computed in `size_t`. -/
def encodePath (escape : Str → Option Str) (path : Str) : Except Fault Str :=
  let encoded_path := encodeLoop escape (path.length + 1) (StringStream.ofString path) [] []
  match index path ((path.length + SIZE_MOD - 1) % SIZE_MOD) with
  | .error f => .error f
  | .ok last =>
    let encoded_path := if '/' = last then encoded_path ++ ['/'] else encoded_path
    .ok (if encoded_path.isEmpty then ['/'] else encoded_path)

/-! ## The relay callbacks -/

/-- A call on the Mongoose connection of the original request. -/
inductive Action where
  /-- The call `mg_send_status(conn, code)` -/
  | status (code : Int)
  /-- The call `mg_send_header(conn, name, value)` -/
  | header (name value : Str)
  /-- The call `mg_send_data(conn, buffer, realsize)` -/
  | data (buffer : Str)
  deriving DecidableEq

/-- A callback invocation made by libcurl while it performs the request. -/
inductive Event where
  /-- The callback `CURLOPT_HEADERFUNCTION` with a buffer of `size * nmemb` characters -/
  | header (buffer : Str)
  /-- The callback `CURLOPT_WRITEFUNCTION` with a buffer of `size * nmemb` characters -/
  | data (buffer : Str)
  deriving DecidableEq

/-- The constant `statusPrefix` of `receiveHeader`. -/
def statusPrefix : Str := "HTTP/1.1 ".toList

/-- The constant `transferEncodingPrefix` of `receiveHeader`. -/
def transferEncodingPrefix : Str := "Transfer-Encoding: ".toList

/-- The constant `contentLengthPrefix` of `receiveHeader`. -/
def contentLengthPrefix : Str := "Content-Length: ".toList

/-- The C function `isspace` in the C locale. -/
def isspace (c : Char) : Bool :=
  c.toNat = 32 || (9 ≤ c.toNat && c.toNat ≤ 13)

/-- The C function `isdigit`. -/
def isdigit (c : Char) : Bool :=
  48 ≤ c.toNat && c.toNat ≤ 57

/-- Value of a run of decimal digits, most significant first. -/
def digitsValue (ds : Str) : Nat :=
  ds.foldl (fun acc d => 10 * acc + (d.toNat - 48)) 0

/-- Largest value of `long` (64 bits): `2 ^ 63 - 1`. -/
def LONG_MAX : Int := 9223372036854775807

/-- Smallest value of `long` (64 bits): `- 2 ^ 63`. -/
def LONG_MIN : Int := -9223372036854775808

/-- Conversion of a `long` to the 32-bit `int`: the low 32 bits, read in
two's complement. -/
def toInt32 (n : Int) : Int :=
  (n + 2147483648) % 4294967296 - 2147483648

/-- The conversion `%d` into an `int`: white space is skipped, then an
optional sign and a non-empty run of digits are read; `none` when there is
no digit. The digits are converted as by `strtol`, into a `long` that
saturates at `LONG_MAX` and `LONG_MIN`, and the `long` is stored into the
`int`, which keeps its low 32 bits. -/
def scanInt (input : Str) : Option Int :=
  let s := input.dropWhile isspace
  let signed : Bool × Str :=
    match s with
    | '-' :: t => (true, t)
    | '+' :: t => (false, t)
    | _ => (false, s)
  let ds := signed.2.takeWhile isdigit
  if ds.isEmpty then none
  else
    let value : Int := if signed.1 then - (digitsValue ds : Int) else (digitsValue ds : Int)
    let num : Int :=
      if value > LONG_MAX then LONG_MAX else if value < LONG_MIN then LONG_MIN else value
    some (toInt32 num)

/-- The call `sscanf(sbuf, "HTTP/1.1 %d", &code)`: the resulting value of `code`,
which keeps its initial value when the literal or the conversion fails. -/
def sscanfStatus (sbuf : Str) (code : Int) : Int :=
  if "HTTP/1.1".toList <+: sbuf then
    match scanInt (sbuf.drop 8) with
    | some v => v
    | none => code
  else code

/-- The lambda `receiveData` (lines 108-115). -/
def receiveData (buffer : Str) : List Action :=
  [Action.data buffer]

/-- The lambda `receiveHeader` (lines 117-151): the calls it makes on the
connection for one header buffer, or the exception it throws. `sbuf` is the
buffer of `size * nmemb` characters, read by `strstr` and `sscanf` as a C
string that ends where the buffer ends. -/
def receiveHeader (sbuf : Str) : Except Fault (List Action) :=
  if strstr sbuf transferEncodingPrefix = some 0 ∨
      strstr sbuf contentLengthPrefix = some 0 then
    .ok []
  else if strstr sbuf statusPrefix = some 0 then
    let code := sscanfStatus sbuf 500
    if 100 ≠ code then .ok [Action.status code] else .ok []
  else
    let headerStr : Str :=
      match find sbuf "\r\n".toList with
      | some pos => erase sbuf pos 2
      | none => sbuf
    match findChar headerStr ':' with
    | none => .ok []
    | some indexSep =>
      match substrN headerStr 0 indexSep, substr headerStr (indexSep + 2) with
      | .ok name, .ok value => .ok [Action.header name value]
      | .error f, _ => .error f
      | _, .error f => .error f

/-- The callbacks run over the invocations libcurl makes, in order; an
exception ends the run. Returns the calls made on the connection and the
fault, if any. -/
def runCallbacks : List Event → List Action × Option Fault
  | [] => ([], none)
  | Event.header buffer :: rest =>
    match receiveHeader buffer with
    | .error f => ([], some f)
    | .ok acts =>
      let r := runCallbacks rest
      (acts ++ r.1, r.2)
  | Event.data buffer :: rest =>
    let r := runCallbacks rest
    (receiveData buffer ++ r.1, r.2)

/-! ## `makeHttpRequest` -/

/-- The fields of `struct mg_connection` the code reads. `query_string`
is `none` for a NULL pointer; `num_headers` is the length of
`http_headers`. -/
structure mg_connection where
  request_method : Str
  uri : Str
  query_string : Option Str
  http_headers : List (Str × Str)
  content : Str
  content_len : Nat
  deriving DecidableEq

/-- The options this call sets on the curl handle before performing. -/
structure CurlRequest where
  /-- The option `CURLOPT_URL` -/
  url : Str
  /-- The option `CURLOPT_CUSTOMREQUEST` -/
  customrequest : Str
  /-- The option `CURLOPT_HTTPHEADER` -/
  httpheader : List Str
  /-- The options `CURLOPT_POSTFIELDSIZE` and `CURLOPT_POSTFIELDS`, when set -/
  postfields : Option (Nat × Str)
  deriving DecidableEq

/-- libcurl as seen by the code. -/
structure Curl where
  /-- whether `curl_handle` is non-NULL -/
  handle : Bool
  /-- The function `curl_easy_escape`; `none` is the NULL result -/
  curl_easy_escape : Str → Option Str
  /-- The function `curl_easy_perform`: the callback invocations it makes and whether
  it returns `CURLE_OK` -/
  curl_easy_perform : CurlRequest → List Event × Bool

/-- What one call of `makeHttpRequest` did. -/
structure Outcome where
  /-- the request handed to `curl_easy_perform`, when that was reached -/
  request : Option CurlRequest
  /-- the calls made on the connection, in order -/
  sent : List Action
  /-- the fault that ended the call, if any -/
  fault : Option Fault
  deriving DecidableEq

/-- Nothing requested, nothing written, no fault. -/
def Outcome.idle : Outcome :=
  { request := none, sent := [], fault := none }

/-- Lines 96-99 of `makeHttpRequest`: the target URI. -/
def targetUri (port encoded_path : Str) (query_string : Option Str) : Str :=
  let uri := "localhost:".toList ++ port ++ encoded_path
  let queryString : Str :=
    match query_string with
    | some q => q
    | none => []
  if !queryString.isEmpty then uri ++ '?' :: queryString else uri

/-- The method `ReverseProxyServer::makeHttpRequest` (lines 66-187). -/
def makeHttpRequest (curl : Curl) (port path : Str) (conn : mg_connection) : Outcome :=
  if !curl.handle then
    { request := none, sent := [Action.status 500], fault := none }
  else
    match encodePath curl.curl_easy_escape path with
    | .error f => { request := none, sent := [], fault := some f }
    | .ok encoded_path =>
      let req : CurlRequest :=
        { url := targetUri port encoded_path conn.query_string
          customrequest := conn.request_method
          httpheader := conn.http_headers.map (fun h => h.1 ++ ": ".toList ++ h.2)
          postfields :=
            if conn.content_len ≠ 0 then some (conn.content_len, conn.content) else none }
      let res := curl.curl_easy_perform req
      match runCallbacks res.1 with
      | (sent, some f) => { request := some req, sent := sent, fault := some f }
      | (sent, none) =>
        { request := some req
          sent := if res.2 then sent else sent ++ [Action.status 500]
          fault := none }

/-! ## `ev_handler` -/

/-- The values of `enum mg_event`. -/
inductive mg_event where
  | MG_POLL | MG_CONNECT | MG_AUTH | MG_REQUEST | MG_REPLY | MG_RECV | MG_CLOSE
  | MG_WS_HANDSHAKE | MG_WS_CONNECT | MG_HTTP_ERROR
  deriving DecidableEq

/-- The values of `enum mg_result`. -/
inductive mg_result where
  | MG_FALSE | MG_MORE | MG_TRUE
  deriving DecidableEq

/-- What one call of `ev_handler` did: the value it returns when the call
completes, the arguments `(port, path)` of its call of `makeHttpRequest` if
it made one, and what happened on the connection. -/
structure Handled where
  result : mg_result
  call : Option (Str × Str)
  outcome : Outcome
  deriving DecidableEq

/-- The loop `for (const auto& item : mappings)` of `ev_handler`
(lines 201-210) over the map in iteration order. -/
def routeLoop (curl : Curl) (conn : mg_connection) : List (Str × Str) → Handled
  | [] => { result := .MG_FALSE, call := none, outcome := Outcome.idle }
  | item :: rest =>
    if strstr conn.uri item.1 ≠ some 0 then routeLoop curl conn rest
    else
      match substr conn.uri item.1.length with
      | .error f =>
        { result := .MG_TRUE, call := none
          outcome := { request := none, sent := [], fault := some f } }
      | .ok path =>
        { result := .MG_TRUE, call := some (item.2, path)
          outcome := makeHttpRequest curl item.2 path conn }

/-- The function `ev_handler` (lines 189-211). `mappings` is the content of
`_mappings` in iteration order. -/
def ev_handler (curl : Curl) (mappings : List (Str × Str)) (conn : mg_connection)
    (ev : mg_event) : Handled :=
  if ev = .MG_AUTH then { result := .MG_TRUE, call := none, outcome := Outcome.idle }
  else if ev ≠ .MG_REQUEST then
    { result := .MG_FALSE, call := none, outcome := Outcome.idle }
  else routeLoop curl conn mappings

/-! ## The route table: `std::map<std::string, std::string>` -/

/-- The comparison `operator<` on `std::string`: lexicographic comparison, a proper prefix
being smaller. -/
def strLt : Str → Str → Bool
  | [], [] => false
  | [], _ :: _ => true
  | _ :: _, [] => false
  | a :: as, b :: bs =>
    if a < b then true else if b < a then false else strLt as bs

/-- The assignment `map[key] = value` on the entries of a `std::map` in iteration order:
the value of an equivalent key is overwritten, a new key is inserted at its
place in ascending order. -/
def mapAssign : List (Str × Str) → Str → Str → List (Str × Str)
  | [], key, value => [(key, value)]
  | (k, v) :: rest, key, value =>
    if strLt key k then (key, value) :: (k, v) :: rest
    else if strLt k key then (k, v) :: mapAssign rest key value
    else (k, value) :: rest

/-- The method `ReverseProxyServer::_readMappings` (lines 46-64) after
parsing: `mainObject` is `none` when the parsed value is not an object,
and otherwise lists the members as `(name, mainObject[name].asString())`
in the order of `getMemberNames()`. Returns `_mappings` in iteration
order. -/
def _readMappings (mainObject : Option (List (Str × Str))) : List (Str × Str) :=
  match mainObject with
  | none => []
  | some items => items.foldl (fun m item => mapAssign m item.1 item.2) []

/-! ## Reference definitions for the claims -/

/-- The request is unhandled: `MG_FALSE`, no forward, nothing written. -/
def unhandled : Handled :=
  { result := .MG_FALSE, call := none, outcome := Outcome.idle }

/-- A matched route: `MG_TRUE`, and `makeHttpRequest` called with the port
of the route and the path without the prefix of the route. -/
def forwarded (curl : Curl) (conn : mg_connection) (item : Str × Str) : Handled :=
  { result := .MG_TRUE
    call := some (item.2, conn.uri.drop item.1.length)
    outcome := makeHttpRequest curl item.2 (conn.uri.drop item.1.length) conn }

/-- What the loop body appends for one item: the escaped item after a
slash, the item itself when `curl_easy_escape` returns NULL. -/
def escapeOrItem (escape : Str → Option Str) (item : Str) : Str :=
  match escape item with
  | some output => output
  | none => item

/-- Reference for the joined segments: every non-empty segment, escaped,
after a slash. -/
def joinSegments (esc : Str → Str) (segments : List Str) : Str :=
  ((segments.filter (fun s => !s.isEmpty)).map (fun s => '/' :: esc s)).flatten

/-- Reference path encoding, in the words of the specification: split on
the slash, drop empty segments, emit a slash and the escaped segment for
each one left, keep one trailing slash when the path ends in one, and
replace an empty result by a single slash. -/
def encodePathSpec (esc : Str → Str) (p : Str) : Str :=
  let joined := joinSegments esc (p.splitOn '/')
  let kept := if p.getLast? = some '/' then joined ++ ['/'] else joined
  if kept.isEmpty then ['/'] else kept

/-- Invariant of `std::map`: iteration visits the keys in strictly
ascending order of `operator<`. -/
def MapOrdered (m : List (Str × Str)) : Prop :=
  m.Pairwise (fun a b => strLt a.1 b.1 = true)

instance (m : List (Str × Str)) : Decidable (MapOrdered m) := by
  unfold MapOrdered; infer_instance

/-! ## Properties of the relayed output -/

/-- The query part of the target URI: a question mark and the query string
when the request has a non-empty one, nothing otherwise. -/
def querySuffix (query_string : Option Str) : Str :=
  match query_string with
  | some q => if q = [] then [] else '?' :: q
  | none => []

/-! ## Sample data -/

/-- Upper-case hexadecimal digit of a number below 16. -/
def hexDigit (n : Nat) : Char :=
  if n < 10 then Char.ofNat (48 + n) else Char.ofNat (55 + n)

/-- The unreserved characters of RFC 3986. -/
def isUnreserved (c : Char) : Bool :=
  c.isAlphanum || c = '-' || c = '.' || c = '_' || c = '~'

/-- A sample `curl_easy_escape`: percent-encoding of every byte that is not
an unreserved character of RFC 3986. -/
def percentEscape (s : Str) : Str :=
  (s.map (fun c =>
    if isUnreserved c then [c]
    else ((String.utf8EncodeChar c).map (fun b =>
      ['%', hexDigit (b.toNat / 16), hexDigit (b.toNat % 16)])).flatten)).flatten

/-- A sample libcurl whose backend answers every request with the given
callback invocations and result. -/
def sampleCurl (events : List Event) (ok : Bool) : Curl :=
  { handle := true
    curl_easy_escape := fun s => some (percentEscape s)
    curl_easy_perform := fun _ => (events, ok) }

/-- A complete HTTP/1.1 response: status line, one header, the blank line
and one body chunk. -/
def sampleResponse : List Event :=
  [Event.header "HTTP/1.1 200 OK\r\n".toList,
   Event.header "Content-Type: text/plain\r\n".toList,
   Event.header "\r\n".toList,
   Event.data "hello".toList]

/-- A sample `GET` request without headers or body. -/
def getRequest (uri : Str) (query_string : Option Str) : mg_connection :=
  { request_method := "GET".toList, uri := uri, query_string := query_string
    http_headers := [], content := [], content_len := 0 }

/-! # Theorems -/

/-! ## Route matching -/

theorem strstr_eq_zero_iff (haystack needle : Str) :
    strstr haystack needle = some 0 ↔ needle <+: haystack := by
  cases haystack with
  | nil =>
    simp only [strstr]
    constructor
    · intro h
      split at h
      · rename_i hn; subst hn; exact List.prefix_refl _
      · exact absurd h (by simp)
    · intro h
      have : needle = [] := List.prefix_nil.mp h
      simp [this]
  | cons c cs =>
    simp only [strstr]
    by_cases hp : needle <+: c :: cs
    · simp [hp]
    · simp only [hp, if_false, iff_false]
      cases strstr cs needle <;> simp

theorem routeLoop_eq_find (curl : Curl) (conn : mg_connection) (mappings : List (Str × Str)) :
    routeLoop curl conn mappings =
      match mappings.find? (fun item => decide (item.1 <+: conn.uri)) with
      | none => unhandled
      | some item => forwarded curl conn item := by
  induction mappings with
  | nil => rfl
  | cons item rest ih =>
    by_cases hp : item.1 <+: conn.uri
    · have hz : strstr conn.uri item.1 = some 0 := (strstr_eq_zero_iff _ _).mpr hp
      have hl : ¬ item.1.length > conn.uri.length := Nat.not_lt.mpr hp.length_le
      simp [routeLoop, hz, hp, substr, hl, forwarded]
    · have hz : strstr conn.uri item.1 ≠ some 0 := fun h => hp ((strstr_eq_zero_iff _ _).mp h)
      simp [routeLoop, hz, hp, ih]

theorem ev_handler_request (curl : Curl) (mappings : List (Str × Str)) (conn : mg_connection) :
    ev_handler curl mappings conn .MG_REQUEST = routeLoop curl conn mappings := by
  simp [ev_handler]

/-- Claim C2: on a request event, ev_handler equals find-first over the route
table in iteration order, the test being that the prefix of the route is a
literal prefix of the path (at position 0). The selected route gets the
path with exactly its prefix removed; the request is unhandled (MG_FALSE,
no call of makeHttpRequest, nothing written) exactly when no configured
prefix is a prefix of the path; a route whose prefix occurs in the path
only at a later position does not match; and every request is unhandled
when the table is empty. -/
theorem ev_handler_find_first (curl : Curl) (mappings : List (Str × Str))
    (conn : mg_connection) :
    (ev_handler curl mappings conn .MG_REQUEST =
      match mappings.find? (fun item => decide (item.1 <+: conn.uri)) with
      | none => unhandled
      | some item => forwarded curl conn item)
    ∧ (∀ item, mappings.find? (fun item => decide (item.1 <+: conn.uri)) = some item →
        item.1 ++ conn.uri.drop item.1.length = conn.uri)
    ∧ (ev_handler curl mappings conn .MG_REQUEST = unhandled ↔
        ∀ item ∈ mappings, ¬ item.1 <+: conn.uri)
    ∧ (∀ item n, strstr conn.uri item.1 = some (n + 1) →
        ev_handler curl [item] conn .MG_REQUEST = unhandled)
    ∧ ev_handler curl [] conn .MG_REQUEST = unhandled := by
  have hfind := routeLoop_eq_find curl conn mappings
  refine ⟨?_, ?_, ?_, ?_, ?_⟩
  · rw [ev_handler_request]; exact hfind
  · intro item h
    have hp : item.1 <+: conn.uri := by simpa using List.find?_some h
    obtain ⟨t, ht⟩ := hp
    rw [← ht]; simp
  · rw [ev_handler_request, hfind]
    constructor
    · intro h item hmem hp
      cases hf : mappings.find? (fun item => decide (item.1 <+: conn.uri)) with
      | none =>
        have := List.find?_eq_none.mp hf item hmem
        simp [hp] at this
      | some sel =>
        rw [hf] at h
        have : (forwarded curl conn sel).result = unhandled.result := congrArg Handled.result h
        simp [forwarded, unhandled] at this
    · intro h
      have hf : mappings.find? (fun item => decide (item.1 <+: conn.uri)) = none := by
        rw [List.find?_eq_none]; intro x hx; simpa using h x hx
      rw [hf]
  · intro item n hn
    have hz : strstr conn.uri item.1 ≠ some 0 := by rw [hn]; simp
    simp [ev_handler, routeLoop, hz, unhandled]
  · rfl

/-- Witness for claim C2: the table with the routes /api/ and /static/, a
request below /api/, a request whose path contains /api/ only at a later
position, and a request no prefix matches. -/
theorem ev_handler_find_first_witness :
    ([("/api/".toList, "8080".toList), ("/static/".toList, "9090".toList)].find?
        (fun item => decide (item.1 <+: (getRequest "/api/users".toList none).uri)) =
      some ("/api/".toList, "8080".toList) ∧
     ("/api/".toList, "8080".toList).1 ++
        (getRequest "/api/users".toList none).uri.drop
          ("/api/".toList, "8080".toList).1.length =
      (getRequest "/api/users".toList none).uri) ∧
    (strstr (getRequest "/v1/api/users".toList none).uri
        ("/api/".toList, "8080".toList).1 = some (2 + 1) ∧
     ev_handler (sampleCurl sampleResponse true) [("/api/".toList, "8080".toList)]
        (getRequest "/v1/api/users".toList none) .MG_REQUEST = unhandled) ∧
    ((∀ item ∈ [("/api/".toList, "8080".toList), ("/static/".toList, "9090".toList)],
        ¬ item.1 <+: (getRequest "/index.html".toList none).uri) ∧
     ev_handler (sampleCurl sampleResponse true)
        [("/api/".toList, "8080".toList), ("/static/".toList, "9090".toList)]
        (getRequest "/index.html".toList none) .MG_REQUEST = unhandled) :=
  ⟨⟨by decide,
    (ev_handler_find_first (sampleCurl sampleResponse true)
      [("/api/".toList, "8080".toList), ("/static/".toList, "9090".toList)]
      (getRequest "/api/users".toList none)).2.1 _ (by decide)⟩,
   ⟨by decide,
    (ev_handler_find_first (sampleCurl sampleResponse true) []
      (getRequest "/v1/api/users".toList none)).2.2.2.1 _ 2 (by decide)⟩,
   ⟨by decide,
    (ev_handler_find_first (sampleCurl sampleResponse true)
      [("/api/".toList, "8080".toList), ("/static/".toList, "9090".toList)]
      (getRequest "/index.html".toList none)).2.2.1.mpr (by decide)⟩⟩

theorem splitOn_cons_slash (d : Char) (cs : Str) :
    (d :: cs).splitOn d = [] :: cs.splitOn d := by
  simp [List.splitOn]

theorem splitOn_cons_other (d c : Char) (cs : Str) (h : c ≠ d) :
    (c :: cs).splitOn d = (cs.splitOn d).modifyHead (List.cons c) := by
  simp [List.splitOn, h]

theorem extractUntil_found (d : Char) (buf : Str) (h : (extractUntil d buf).2.2 = true) :
    buf.splitOn d = (extractUntil d buf).1 :: (extractUntil d buf).2.1.splitOn d ∧
      (extractUntil d buf).2.1.length < buf.length := by
  induction buf with
  | nil => simp [extractUntil] at h
  | cons c cs ih =>
    by_cases hc : c = d
    · subst hc
      simp [extractUntil, splitOn_cons_slash]
    · simp only [extractUntil, hc, if_false] at h ⊢
      obtain ⟨h1, h2⟩ := ih h
      rw [splitOn_cons_other d c cs hc, h1]
      simp only [List.modifyHead_cons, List.length_cons, true_and]
      omega

theorem extractUntil_not_found (d : Char) (buf : Str)
    (h : (extractUntil d buf).2.2 = false) :
    buf.splitOn d = [(extractUntil d buf).1] ∧ (extractUntil d buf).1 = buf := by
  induction buf with
  | nil => simp [extractUntil]
  | cons c cs ih =>
    by_cases hc : c = d
    · subst hc
      simp [extractUntil] at h
    · simp only [extractUntil, hc, if_false] at h ⊢
      obtain ⟨h1, h2⟩ := ih h
      rw [splitOn_cons_other d c cs hc, h1, h2]
      simp

theorem encodeLoop_at_eof (escape : Str → Option Str) (fuel : Nat) (buf item acc : Str)
    (failbit : Bool) :
    encodeLoop escape fuel { buf := buf, eofbit := true, failbit := failbit } item acc = acc := by
  cases fuel with
  | zero => rfl
  | succ n => simp [encodeLoop, getline]

theorem joinSegments_cons (esc : Str → Str) (s : Str) (rest : List Str) :
    joinSegments esc (s :: rest) =
      (if s.isEmpty then [] else '/' :: esc s) ++ joinSegments esc rest := by
  cases s <;> simp [joinSegments]

theorem encodeLoop_eq (escape : Str → Option Str) (fuel : Nat) :
    ∀ (buf item acc : Str), buf.length < fuel →
      encodeLoop escape fuel { buf := buf, eofbit := false, failbit := false } item acc =
        acc ++ joinSegments (escapeOrItem escape) (buf.splitOn '/') := by
  induction fuel with
  | zero => intro buf item acc h; omega
  | succ n ih =>
    intro buf item acc hlen
    cases hx : (extractUntil '/' buf).2.2 with
    | true =>
      obtain ⟨hs, hl⟩ := extractUntil_found '/' buf hx
      have hg : getline { buf := buf, eofbit := false, failbit := false } item '/' =
          ({ buf := (extractUntil '/' buf).2.1, eofbit := false, failbit := false },
            (extractUntil '/' buf).1) := by
        simp only [getline, Bool.or_self, Bool.false_eq_true, if_false]
        rcases hr : extractUntil '/' buf with ⟨a, b, c⟩
        rw [hr] at hx; simp at hx; subst hx; rfl
      rw [hs, joinSegments_cons]
      simp only [encodeLoop, hg, Bool.false_eq_true, if_false]
      have hl2 : (extractUntil '/' buf).2.1.length < n := by omega
      by_cases he : (extractUntil '/' buf).1.isEmpty = true
      · simp [he, ih _ _ _ hl2]
      · simp only [he, if_false, Bool.false_eq_true]
        cases hesc : escape (extractUntil '/' buf).1 with
        | some output =>
          simp [ih _ _ _ hl2, escapeOrItem, hesc]
        | none =>
          simp [ih _ _ _ hl2, escapeOrItem, hesc]
    | false =>
      obtain ⟨hs, hb⟩ := extractUntil_not_found '/' buf hx
      have hg : getline { buf := buf, eofbit := false, failbit := false } item '/' =
          ({ buf := [], eofbit := true, failbit := buf.isEmpty }, buf) := by
        simp only [getline, Bool.or_self, Bool.false_eq_true, if_false]
        rcases hr : extractUntil '/' buf with ⟨a, b, c⟩
        rw [hr] at hx hb; simp at hx hb; subst hx; subst hb; rfl
      rw [hs, hb, joinSegments_cons]
      simp only [encodeLoop, hg]
      by_cases he : buf.isEmpty = true
      · simp [he, joinSegments]
      · simp only [he, if_false, Bool.false_eq_true]
        cases hesc : escape buf with
        | some output =>
          simp [encodeLoop_at_eof, escapeOrItem, hesc, joinSegments]
        | none =>
          simp [encodeLoop_at_eof, escapeOrItem, hesc, joinSegments]

theorem index_last (p : Str) (hne : p ≠ []) (hsz : p.length < SIZE_MOD) :
    index p ((p.length + SIZE_MOD - 1) % SIZE_MOD) = .ok (p.getLast hne) := by
  have hpos : 0 < p.length := List.length_pos.mpr hne
  have hidx : (p.length + SIZE_MOD - 1) % SIZE_MOD = p.length - 1 := by
    have : p.length + SIZE_MOD - 1 = (p.length - 1) + SIZE_MOD := by omega
    rw [this, Nat.add_mod_right, Nat.mod_eq_of_lt (by omega)]
  have hlt : p.length - 1 < p.length := by omega
  rw [hidx]
  simp only [index, hlt, dif_pos, List.getLast_eq_getElem, List.get_eq_getElem]

theorem encodePath_eq_spec (escape : Str → Option Str) (p : Str) (hne : p ≠ [])
    (hsz : p.length < SIZE_MOD) :
    encodePath escape p = .ok (encodePathSpec (escapeOrItem escape) p) := by
  have hloop := encodeLoop_eq escape (p.length + 1) p [] [] (Nat.lt_succ_self _)
  have hlast : p.getLast? = some (p.getLast hne) := List.getLast?_eq_getLast _ hne
  simp only [encodePath, StringStream.ofString, hloop, index_last p hne hsz, encodePathSpec,
    List.nil_append, hlast, Option.some.injEq]
  by_cases h : '/' = p.getLast hne
  · simp [h, ← h]
  · have h2 : ¬ p.getLast hne = '/' := fun e => h e.symm
    simp [h, h2]

/-! ## The route table is ordered -/

theorem strLt_trans : ∀ (a b c : Str), strLt a b = true → strLt b c = true →
    strLt a c = true
  | [], [], _, h, _ => by simp [strLt] at h
  | [], _ :: _, [], _, h => by simp [strLt] at h
  | [], _ :: _, _ :: _, _, _ => by simp [strLt]
  | _ :: _, [], _, h, _ => by simp [strLt] at h
  | _ :: _, _ :: _, [], _, h => by simp [strLt] at h
  | x :: xs, y :: ys, z :: zs, h1, h2 => by
    simp only [strLt] at h1 h2 ⊢
    rcases lt_trichotomy x y with hxy | hxy | hxy
    · rcases lt_trichotomy y z with hyz | hyz | hyz
      · simp [lt_trans hxy hyz]
      · subst hyz; simp [hxy]
      · simp [hyz, not_lt_of_lt hyz] at h2
    · subst hxy
      rcases lt_trichotomy x z with hyz | hyz | hyz
      · simp [hyz]
      · subst hyz
        simp only [lt_irrefl, if_false] at h1 h2 ⊢
        exact strLt_trans xs ys zs h1 h2
      · simp [hyz, not_lt_of_lt hyz] at h2
    · simp [hxy, not_lt_of_lt hxy] at h1

theorem mem_mapAssign (m : List (Str × Str)) (key value : Str) (x : Str × Str)
    (hx : x ∈ mapAssign m key value) : x.1 = key ∨ ∃ y ∈ m, x.1 = y.1 := by
  induction m with
  | nil =>
    simp only [mapAssign, List.mem_singleton] at hx
    left; rw [hx]
  | cons kv rest ih =>
    obtain ⟨k, v⟩ := kv
    simp only [mapAssign] at hx
    split at hx
    · rcases List.mem_cons.mp hx with h | h
      · left; rw [h]
      · right; exact ⟨x, h, rfl⟩
    · split at hx
      · rcases List.mem_cons.mp hx with h | h
        · right; exact ⟨(k, v), List.mem_cons_self _ _, by rw [h]⟩
        · rcases ih h with h' | ⟨y, hy, hxy⟩
          · left; exact h'
          · right; exact ⟨y, List.mem_cons_of_mem _ hy, hxy⟩
      · rcases List.mem_cons.mp hx with h | h
        · right; exact ⟨(k, v), List.mem_cons_self _ _, by rw [h]⟩
        · right; exact ⟨x, List.mem_cons_of_mem _ h, rfl⟩

theorem mapAssign_ordered (m : List (Str × Str)) (key value : Str) (hm : MapOrdered m) :
    MapOrdered (mapAssign m key value) := by
  induction m with
  | nil => simp [mapAssign, MapOrdered]
  | cons kv rest ih =>
    obtain ⟨k, v⟩ := kv
    unfold MapOrdered at hm ih ⊢
    obtain ⟨hhead, hrest⟩ := List.pairwise_cons.mp hm
    simp only [mapAssign]
    split
    · rename_i hlt
      refine List.pairwise_cons.mpr ⟨?_, hm⟩
      intro y hy
      rcases List.mem_cons.mp hy with h | h
      · rw [h]; exact hlt
      · exact strLt_trans _ _ _ hlt (hhead y h)
    · split
      · rename_i hlt
        refine List.pairwise_cons.mpr ⟨?_, ih hrest⟩
        intro y hy
        rcases mem_mapAssign rest key value y hy with h | ⟨z, hz, hyz⟩
        · rw [h]; exact hlt
        · rw [hyz]; exact hhead z hz
      · exact List.pairwise_cons.mpr ⟨hhead, hrest⟩

/-- Every table `_readMappings` builds is in strictly ascending key
order. -/
theorem readMappings_ordered (mainObject : Option (List (Str × Str))) :
    MapOrdered (_readMappings mainObject) := by
  cases mainObject with
  | none => simp [_readMappings, MapOrdered]
  | some items =>
    simp only [_readMappings]
    have : ∀ (acc : List (Str × Str)), MapOrdered acc →
        MapOrdered (items.foldl (fun m item => mapAssign m item.1 item.2) acc) := by
      induction items with
      | nil => intro acc h; exact h
      | cons it its ih =>
        intro acc h
        exact ih _ (mapAssign_ordered acc it.1 it.2 h)
    exact this [] (by simp [MapOrdered])

theorem strLt_append_left (b t : Str) : strLt (b ++ t) b = false := by
  induction b with
  | nil => cases t <;> rfl
  | cons c cs ih =>
    have hirr : ¬ c < c := lt_irrefl c
    simp [strLt, hirr, ih]

theorem length_lt_of_prefix_of_strLt (a b u : Str) (ha : a <+: u) (hb : b <+: u)
    (hlt : strLt a b = true) : a.length < b.length := by
  by_contra hge
  have hle : b.length ≤ a.length := Nat.le_of_not_lt hge
  obtain ⟨t, ht⟩ := List.prefix_of_prefix_length_le hb ha hle
  rw [← ht, strLt_append_left] at hlt
  exact Bool.false_ne_true hlt

theorem find_first_shortest (mappings : List (Str × Str)) (uri : Str)
    (hm : MapOrdered mappings) (sel : Str × Str)
    (hf : mappings.find? (fun item => decide (item.1 <+: uri)) = some sel) :
    sel ∈ mappings ∧ sel.1 <+: uri ∧
      ∀ other ∈ mappings, other.1 <+: uri → other ≠ sel → sel.1.length < other.1.length := by
  obtain ⟨hp, pre, post, hsplit, hpre⟩ := List.find?_eq_some.mp hf
  have hp : sel.1 <+: uri := by simpa using hp
  refine ⟨by rw [hsplit]; simp, hp, ?_⟩
  intro other hmem hop hne
  rw [hsplit] at hmem hm
  rcases List.mem_append.mp hmem with hin | hin
  · have := hpre other hin
    simp [hop] at this
  · rcases List.mem_cons.mp hin with heq | hin
    · exact absurd heq hne
    · have hpw := (List.pairwise_append.mp hm).2.1
      have hlt := (List.pairwise_cons.mp hpw).1 other hin
      exact length_lt_of_prefix_of_strLt _ _ uri hp hop hlt

/-- Claim C10: with the route table in ascending key order (the iteration order
of the map), whenever some configured prefix is a prefix of the path the
route ev_handler selects is the configured route with the shortest such
prefix: every other configured route whose prefix matches has a strictly
longer prefix, so the longer of two matching prefixes is never selected;
and an empty prefix, if configured, is selected for every request. -/
theorem ev_handler_selects_shortest (curl : Curl) (mappings : List (Str × Str))
    (conn : mg_connection) (hm : MapOrdered mappings) :
    (∀ item ∈ mappings, item.1 <+: conn.uri →
      ∃ sel ∈ mappings, sel.1 <+: conn.uri ∧
        (∀ other ∈ mappings, other.1 <+: conn.uri → other ≠ sel →
          sel.1.length < other.1.length) ∧
        ev_handler curl mappings conn .MG_REQUEST = forwarded curl conn sel)
    ∧ (∀ port, (([] : Str), port) ∈ mappings →
        ev_handler curl mappings conn .MG_REQUEST = forwarded curl conn ([], port)) := by
  have key : ∀ item ∈ mappings, item.1 <+: conn.uri →
      ∃ sel ∈ mappings, sel.1 <+: conn.uri ∧
        (∀ other ∈ mappings, other.1 <+: conn.uri → other ≠ sel →
          sel.1.length < other.1.length) ∧
        ev_handler curl mappings conn .MG_REQUEST = forwarded curl conn sel := by
    intro item hmem hp
    cases hf : mappings.find? (fun item => decide (item.1 <+: conn.uri)) with
    | none =>
      have := List.find?_eq_none.mp hf item hmem
      simp [hp] at this
    | some sel =>
      obtain ⟨h1, h2, h3⟩ := find_first_shortest mappings conn.uri hm sel hf
      refine ⟨sel, h1, h2, h3, ?_⟩
      rw [ev_handler_request, routeLoop_eq_find, hf]
  refine ⟨key, ?_⟩
  intro port hmem
  obtain ⟨sel, _, _, hmin, hev⟩ := key ([], port) hmem List.nil_prefix
  by_cases heq : (([] : Str), port) = sel
  · rw [hev, heq]
  · have := hmin ([], port) hmem List.nil_prefix heq
    simp at this

/-- Witness for claim C10: the table read from a configuration that lists
/ab before /a, and the request path /abc. -/
theorem ev_handler_selects_shortest_witness :
    _readMappings (some [("/ab".toList, "2".toList), ("/a".toList, "1".toList)]) =
      [("/a".toList, "1".toList), ("/ab".toList, "2".toList)] ∧
    MapOrdered (_readMappings (some [("/ab".toList, "2".toList), ("/a".toList, "1".toList)])) ∧
    ((∀ item ∈ _readMappings (some [("/ab".toList, "2".toList), ("/a".toList, "1".toList)]),
        item.1 <+: (getRequest "/abc".toList none).uri →
      ∃ sel ∈ _readMappings (some [("/ab".toList, "2".toList), ("/a".toList, "1".toList)]),
        sel.1 <+: (getRequest "/abc".toList none).uri ∧
        (∀ other ∈ _readMappings (some [("/ab".toList, "2".toList), ("/a".toList, "1".toList)]),
          other.1 <+: (getRequest "/abc".toList none).uri → other ≠ sel →
          sel.1.length < other.1.length) ∧
        ev_handler (sampleCurl sampleResponse true)
            (_readMappings (some [("/ab".toList, "2".toList), ("/a".toList, "1".toList)]))
            (getRequest "/abc".toList none) .MG_REQUEST =
          forwarded (sampleCurl sampleResponse true) (getRequest "/abc".toList none) sel)
    ∧ (∀ port, (([] : Str), port) ∈
          _readMappings (some [("/ab".toList, "2".toList), ("/a".toList, "1".toList)]) →
        ev_handler (sampleCurl sampleResponse true)
            (_readMappings (some [("/ab".toList, "2".toList), ("/a".toList, "1".toList)]))
            (getRequest "/abc".toList none) .MG_REQUEST =
          forwarded (sampleCurl sampleResponse true) (getRequest "/abc".toList none)
            ([], port))) :=
  ⟨by decide, by decide, ev_handler_selects_shortest _ _ _ (by decide)⟩

/-- Claim C3: for every non-empty residual path (of a size a std::string can
have) and every curl_easy_escape, the encoded path built by makeHttpRequest
is the reference encoding with the escaping the loop applies (the escaped
segment, the segment itself when the escape returns NULL); in particular,
for an escape esc that always succeeds, it is the reference encoding with
esc. -/
theorem encodePath_refines_spec (p : Str) (hne : p ≠ []) (hsz : p.length < SIZE_MOD) :
    (∀ escape : Str → Option Str,
      encodePath escape p = .ok (encodePathSpec (escapeOrItem escape) p))
    ∧ (∀ esc : Str → Str,
      encodePath (fun s => some (esc s)) p = .ok (encodePathSpec esc p)) :=
  ⟨fun escape => encodePath_eq_spec escape p hne hsz,
   fun esc => encodePath_eq_spec (fun s => some (esc s)) p hne hsz⟩

/-- Witness for claim C3 on the residual path users/a b/ -/
theorem encodePath_refines_spec_witness :
    "users/a b/".toList ≠ [] ∧ "users/a b/".toList.length < SIZE_MOD ∧
    ((∀ escape : Str → Option Str,
      encodePath escape "users/a b/".toList =
        .ok (encodePathSpec (escapeOrItem escape) "users/a b/".toList))
    ∧ (∀ esc : Str → Str,
      encodePath (fun s => some (esc s)) "users/a b/".toList =
        .ok (encodePathSpec esc "users/a b/".toList))) :=
  ⟨by decide, by decide, encodePath_refines_spec _ (by decide) (by decide)⟩

/-! ## The outbound request -/

theorem targetUri_eq (port encoded : Str) (query_string : Option Str) :
    targetUri port encoded query_string =
      "localhost:".toList ++ port ++ encoded ++ querySuffix query_string := by
  cases query_string with
  | none => simp [targetUri, querySuffix]
  | some q => cases q <;> simp [targetUri, querySuffix]

theorem makeHttpRequest_url (curl : Curl) (port path : Str) (conn : mg_connection)
    (encoded : Str) (hh : curl.handle = true)
    (he : encodePath curl.curl_easy_escape path = .ok encoded) :
    (makeHttpRequest curl port path conn).request.map CurlRequest.url =
      some ("localhost:".toList ++ port ++ encoded ++ querySuffix conn.query_string) := by
  simp only [makeHttpRequest, hh, he, Bool.not_true, Bool.false_eq_true, if_false]
  rw [← targetUri_eq]
  split <;> rfl

/-- Claim C4: whenever makeHttpRequest reaches the request (handle initialised,
encoded path computed), the URL it sets is localhost: followed by the port
and the encoded path, then a question mark and the query string exactly when
the query string is present and non-empty, the query string being copied
unchanged. In particular the table with the single route /api/ to 8080 and
the request GET /api/users?active=true give localhost:8080/users?active=true,
for every escape that leaves the segment users as it is. -/
theorem makeHttpRequest_target_uri :
    (∀ (curl : Curl) (port path : Str) (conn : mg_connection) (encoded : Str),
      curl.handle = true → encodePath curl.curl_easy_escape path = .ok encoded →
      (∀ q, conn.query_string = some q → q ≠ [] →
        (makeHttpRequest curl port path conn).request.map CurlRequest.url =
          some ("localhost:".toList ++ port ++ encoded ++ "?".toList ++ q))
      ∧ ((conn.query_string = none ∨ conn.query_string = some []) →
        (makeHttpRequest curl port path conn).request.map CurlRequest.url =
          some ("localhost:".toList ++ port ++ encoded)))
    ∧ (∀ curl : Curl, curl.handle = true →
        escapeOrItem curl.curl_easy_escape "users".toList = "users".toList →
        (ev_handler curl [("/api/".toList, "8080".toList)]
          (getRequest "/api/users".toList (some "active=true".toList))
          .MG_REQUEST).outcome.request.map CurlRequest.url =
          some "localhost:8080/users?active=true".toList) := by
  constructor
  · intro curl port path conn encoded hh he
    have h := makeHttpRequest_url curl port path conn encoded hh he
    constructor
    · intro q hq hne
      rw [h, hq]; simp [querySuffix, hne]
    · intro hq
      rw [h]
      rcases hq with hq | hq <;> simp [querySuffix, hq]
  · intro curl hh hesc
    have hp : encodePath curl.curl_easy_escape "users".toList = .ok "/users".toList := by
      rw [encodePath_eq_spec _ _ (by decide) (by decide)]
      simp only [encodePathSpec, joinSegments]
      have : "users".toList.splitOn '/' = ["users".toList] := by decide
      rw [this]
      simp only [List.filter, List.map, List.flatten, hesc]
      decide
    rw [ev_handler_request, routeLoop_eq_find]
    have hf : [("/api/".toList, "8080".toList)].find?
        (fun item => decide (item.1 <+: (getRequest "/api/users".toList
          (some "active=true".toList)).uri)) = some ("/api/".toList, "8080".toList) := by
      decide
    rw [hf]
    have hd : (getRequest "/api/users".toList (some "active=true".toList)).uri.drop
        ("/api/".toList, "8080".toList).1.length = "users".toList := by decide
    simp only [forwarded, hd]
    rw [makeHttpRequest_url curl _ _ _ _ hh hp]
    decide

/-- Witness for claim C4: the sample libcurl on a request with a query
string and on one without, and on the scenario of the claim. -/
theorem makeHttpRequest_target_uri_witness :
    ((sampleCurl sampleResponse true).handle = true ∧
      encodePath (sampleCurl sampleResponse true).curl_easy_escape "a b/".toList =
        .ok "/a%20b/".toList) ∧
    ((∀ q, (getRequest "/api/a b/".toList (some "x=1&y=%2F".toList)).query_string = some q →
        q ≠ [] →
        (makeHttpRequest (sampleCurl sampleResponse true) "8080".toList "a b/".toList
          (getRequest "/api/a b/".toList (some "x=1&y=%2F".toList))).request.map
            CurlRequest.url =
          some ("localhost:".toList ++ "8080".toList ++ "/a%20b/".toList ++ "?".toList ++ q))
      ∧ (((getRequest "/api/a b/".toList (some "x=1&y=%2F".toList)).query_string = none ∨
          (getRequest "/api/a b/".toList (some "x=1&y=%2F".toList)).query_string = some []) →
        (makeHttpRequest (sampleCurl sampleResponse true) "8080".toList "a b/".toList
          (getRequest "/api/a b/".toList (some "x=1&y=%2F".toList))).request.map
            CurlRequest.url =
          some ("localhost:".toList ++ "8080".toList ++ "/a%20b/".toList))) ∧
    (escapeOrItem (sampleCurl sampleResponse true).curl_easy_escape "users".toList =
      "users".toList ∧
    (ev_handler (sampleCurl sampleResponse true) [("/api/".toList, "8080".toList)]
      (getRequest "/api/users".toList (some "active=true".toList))
      .MG_REQUEST).outcome.request.map CurlRequest.url =
      some "localhost:8080/users?active=true".toList) :=
  ⟨⟨by decide, by decide⟩,
   makeHttpRequest_target_uri.1 (sampleCurl sampleResponse true) "8080".toList "a b/".toList
     (getRequest "/api/a b/".toList (some "x=1&y=%2F".toList)) "/a%20b/".toList
     (by decide) (by decide),
   by decide, makeHttpRequest_target_uri.2 _ (by decide) (by decide)⟩

/-! ## Forwarding of a matched request -/

/-- Claim C1 as stated fails: with the routes /a to 1 and /ab to 2, the route
(/ab, 2) is configured and the path /abc starts with /ab, yet the request
is forwarded to localhost:1/bc, not to localhost:2/c. -/
theorem ev_handler_forward_counterexample :
    ("/ab".toList, "2".toList) ∈ [("/a".toList, "1".toList), ("/ab".toList, "2".toList)] ∧
    "/ab".toList <+: (getRequest "/abc".toList none).uri ∧
    (ev_handler (sampleCurl sampleResponse true)
      [("/a".toList, "1".toList), ("/ab".toList, "2".toList)]
      (getRequest "/abc".toList none) .MG_REQUEST).outcome.request.map CurlRequest.url =
      some "localhost:1/bc".toList ∧
    "localhost:".toList ++ "2".toList ++
      encodePathSpec percentEscape ((getRequest "/abc".toList none).uri.drop "/ab".toList.length) ++
      querySuffix (getRequest "/abc".toList none).query_string = "localhost:2/c".toList := by
  decide

/-- Claim C1 amended: when the outbound handle is initialised, for the first
route (prefix, port) in table order whose prefix is a prefix of the request
path, the path being longer than the prefix, ev_handler calls
makeHttpRequest with that port and the path without the prefix, and the
request is made to localhost:port followed by the reference encoding of the
path without the prefix and by the query string, after a question mark, when
it is non-empty. -/
theorem ev_handler_forwards_first_match (curl : Curl) (mappings : List (Str × Str))
    (conn : mg_connection) (item : Str × Str)
    (hh : curl.handle = true)
    (hf : mappings.find? (fun r => decide (r.1 <+: conn.uri)) = some item)
    (hne : conn.uri ≠ item.1)
    (hsz : conn.uri.length < SIZE_MOD) :
    (ev_handler curl mappings conn .MG_REQUEST).call =
      some (item.2, conn.uri.drop item.1.length) ∧
    (ev_handler curl mappings conn .MG_REQUEST).outcome.request.map CurlRequest.url =
      some ("localhost:".toList ++ item.2 ++
        encodePathSpec (escapeOrItem curl.curl_easy_escape) (conn.uri.drop item.1.length) ++
        querySuffix conn.query_string) := by
  have hp : item.1 <+: conn.uri := by simpa using List.find?_some hf
  obtain ⟨t, ht⟩ := hp
  have hd : conn.uri.drop item.1.length = t := by rw [← ht]; simp
  have htne : t ≠ [] := by
    intro h; apply hne; rw [← ht, h]; simp
  have htsz : t.length < SIZE_MOD := by
    have : t.length ≤ conn.uri.length := by rw [← ht]; simp
    omega
  rw [ev_handler_request, routeLoop_eq_find, hf]
  simp only [forwarded, hd, true_and]
  exact makeHttpRequest_url curl _ _ _ _ hh (encodePath_eq_spec _ t htne htsz)

/-- Witness for claim C1 amended: route /api/ to 8080 and the request
GET /api/users?active=true. -/
theorem ev_handler_forwards_first_match_witness :
    ((sampleCurl sampleResponse true).handle = true ∧
     [("/api/".toList, "8080".toList)].find?
        (fun r => decide (r.1 <+:
          (getRequest "/api/users".toList (some "active=true".toList)).uri)) =
      some ("/api/".toList, "8080".toList) ∧
     (getRequest "/api/users".toList (some "active=true".toList)).uri ≠
      ("/api/".toList, "8080".toList).1 ∧
     (getRequest "/api/users".toList (some "active=true".toList)).uri.length < SIZE_MOD) ∧
    (ev_handler (sampleCurl sampleResponse true) [("/api/".toList, "8080".toList)]
      (getRequest "/api/users".toList (some "active=true".toList)) .MG_REQUEST).call =
      some ("8080".toList, "users".toList) ∧
    (ev_handler (sampleCurl sampleResponse true) [("/api/".toList, "8080".toList)]
      (getRequest "/api/users".toList (some "active=true".toList))
      .MG_REQUEST).outcome.request.map CurlRequest.url =
      some ("localhost:".toList ++ "8080".toList ++
        encodePathSpec (escapeOrItem (sampleCurl sampleResponse true).curl_easy_escape)
          "users".toList ++
        querySuffix (some "active=true".toList)) :=
  ⟨⟨by decide, by decide, by decide, by decide⟩,
   ev_handler_forwards_first_match (sampleCurl sampleResponse true)
    [("/api/".toList, "8080".toList)]
    (getRequest "/api/users".toList (some "active=true".toList))
    ("/api/".toList, "8080".toList) (by decide) (by decide) (by decide) (by decide)⟩

/-- Claim C8: the code does not do what the claim says. For the empty residual
path the index path.size()-1 wraps around to 2^64-1 and the access
path[path.size()-1] is out of bounds, for every escape; so a request whose
path equals the matched prefix, here /api, ends in that fault before any
request is made. -/
theorem encodePath_empty_out_of_bounds :
    (∀ escape : Str → Option Str, encodePath escape [] = .error Fault.outOfBounds) ∧
    ev_handler (sampleCurl sampleResponse true) [("/api".toList, "8080".toList)]
      (getRequest "/api".toList none) .MG_REQUEST =
      { result := .MG_TRUE, call := some ("8080".toList, [])
        outcome := { request := none, sent := [], fault := some Fault.outOfBounds } } := by
  constructor
  · intro escape; rfl
  · decide

/-- Claim C5: the code does not do what the claim says. A Content-Length header
line without a space after the colon is relayed as a header named
Content-Length, and a Transfer-Encoding header line in lower case is
relayed as well. -/
theorem receiveHeader_relays_content_length :
    receiveHeader "Content-Length:5\r\n".toList =
      .ok [Action.header "Content-Length".toList []] ∧
    receiveHeader "transfer-encoding: chunked\r\n".toList =
      .ok [Action.header "transfer-encoding".toList "chunked".toList] := by
  decide

/-- Claim C9: the code does not do what the claim says. For a header line whose
colon ends the line, substr(indexSep+2) starts beyond the end of the line
and throws, so nothing is forwarded; and for a colon followed directly by
the value, the first character of the value is dropped. -/
theorem receiveHeader_colon_at_end_throws :
    receiveHeader "X-Empty:\r\n".toList = .error Fault.outOfRange ∧
    receiveHeader "X-Id:42\r\n".toList = .ok [Action.header "X-Id".toList "2".toList] := by
  decide

/-! ## The relay -/

/-- A status code that does not fit the `int` is stored truncated: the code
2^32 + 100 is read as 100 and suppressed, and 2^32 + 200 is relayed as
200. -/
theorem receiveHeader_status_stored_in_int :
    receiveHeader "HTTP/1.1 4294967396 OK\r\n".toList = .ok [] ∧
    receiveHeader "HTTP/1.1 4294967496 OK\r\n".toList = .ok [Action.status 200] := by
  decide

/-- Claim C7 as stated fails: after a status code and a body chunk have been
relayed, a failing request still makes makeHttpRequest send status 500. -/
theorem makeHttpRequest_failure_counterexample :
    (makeHttpRequest
      (sampleCurl [Event.header "HTTP/1.1 200 OK\r\n".toList, Event.header "\r\n".toList,
        Event.data "partial".toList] false)
      "8080".toList "users".toList (getRequest "/api/users".toList none)).sent =
      [Action.status 200, Action.data "partial".toList, Action.status 500] := by
  decide

/-- Claim C7 amended: when the request was handed to libcurl, no callback threw
and the result is not CURLE_OK, makeHttpRequest sends status 500 after
whatever the callbacks relayed, whether or not a status code, headers or
body chunks are among it. -/
theorem makeHttpRequest_failure_status (curl : Curl) (port path : Str)
    (conn : mg_connection) (req : CurlRequest)
    (hreq : (makeHttpRequest curl port path conn).request = some req)
    (hres : (curl.curl_easy_perform req).2 = false)
    (hok : (runCallbacks (curl.curl_easy_perform req).1).2 = none) :
    (makeHttpRequest curl port path conn).sent =
      (runCallbacks (curl.curl_easy_perform req).1).1 ++ [Action.status 500] ∧
    (makeHttpRequest curl port path conn).fault = none := by
  unfold makeHttpRequest at hreq ⊢
  split at hreq
  · cases hreq
  · rename_i hh
    simp only [hh, if_false]
    split at hreq
    · cases hreq
    · rename_i encoded he
      simp only at hreq ⊢
      split at hreq
      · rename_i sent f hrun
        simp only [Option.some.injEq] at hreq
        rw [hreq] at hrun
        rw [hrun] at hok
        cases hok
      · rename_i sent hrun
        simp only [Option.some.injEq] at hreq
        rw [hreq] at hrun ⊢
        rw [hrun, hres]
        simp

/-- Witness for claim C7 amended: the backend fails after relaying a status code
and a body chunk. -/
theorem makeHttpRequest_failure_status_witness :
    ((makeHttpRequest
        (sampleCurl [Event.header "HTTP/1.1 200 OK\r\n".toList,
          Event.data "partial".toList] false)
        "8080".toList "users".toList (getRequest "/api/users".toList none)).request =
      some { url := "localhost:8080/users".toList, customrequest := "GET".toList,
             httpheader := [], postfields := none } ∧
     ((sampleCurl [Event.header "HTTP/1.1 200 OK\r\n".toList,
        Event.data "partial".toList] false).curl_easy_perform
          { url := "localhost:8080/users".toList, customrequest := "GET".toList,
            httpheader := [], postfields := none }).2 = false ∧
     (runCallbacks ((sampleCurl [Event.header "HTTP/1.1 200 OK\r\n".toList,
        Event.data "partial".toList] false).curl_easy_perform
          { url := "localhost:8080/users".toList, customrequest := "GET".toList,
            httpheader := [], postfields := none }).1).2 = none) ∧
    ((makeHttpRequest
        (sampleCurl [Event.header "HTTP/1.1 200 OK\r\n".toList,
          Event.data "partial".toList] false)
        "8080".toList "users".toList (getRequest "/api/users".toList none)).sent =
      (runCallbacks ((sampleCurl [Event.header "HTTP/1.1 200 OK\r\n".toList,
        Event.data "partial".toList] false).curl_easy_perform
          { url := "localhost:8080/users".toList, customrequest := "GET".toList,
            httpheader := [], postfields := none }).1).1 ++ [Action.status 500] ∧
     (makeHttpRequest
        (sampleCurl [Event.header "HTTP/1.1 200 OK\r\n".toList,
          Event.data "partial".toList] false)
        "8080".toList "users".toList (getRequest "/api/users".toList none)).fault = none) :=
  ⟨⟨by decide, by decide, by decide⟩,
   makeHttpRequest_failure_status _ _ _ _
    { url := "localhost:8080/users".toList, customrequest := "GET".toList,
      httpheader := [], postfields := none } (by decide) (by decide) (by decide)⟩

end ReverseProxy
